import Mathlib

set_option maxRecDepth 8000
set_option exponentiation.threshold 1100
set_option allowUnsafeReducibility true
attribute [semireducible] Rat.mul Rat.inv Rat.add Rat.sub Rat.neg Rat.div Rat.ofScientific

/-!
Verification of the BMI calculator screen (src/app/index.tsx).

The file embeds the two screen variants of the source shallowly:

* Numbers are modelled as exact rationals (ℚ).  The source computes with
  IEEE-754 doubles; every constant and every operation the claims exercise
  (comparisons against the literal bounds, `w / (h/100)^2`, the clamp to
  [0,1]) is stated here over the exact values.
* The JavaScript runtime pieces the source calls — `String.prototype.replace`
  with a string pattern (first occurrence only), `String.prototype.trim`,
  `Number(string)` and `Number.isFinite` — are modelled once, below, and the
  two (textually identical) `parseNumber` functions of the source are both
  defined on top of them.  `Number(string)` follows the StringNumericLiteral
  grammar: optional sign, decimal digits with optional fraction and exponent,
  the keyword Infinity, and the unsigned 0x / 0o / 0b radix literals.  The
  sign of an infinity is not tracked (JsNum.inf), since the source only ever
  asks `Number.isFinite`, which is false for either infinity.  Overflow of
  the exact value to an infinite double is modelled by the bound 2^1024: a
  finite double's magnitude is below 2^1024, so a parsed magnitude at or
  above it yields Infinity and hence `null` in the source.
* Animation side effects are modelled as emitted intents: starting a timing
  or spring animation on a shared value is an `Intent.anim` on that value's
  channel with its list of segments (a `withSequence` / `Animated.sequence`
  is one `anim` with several segments), and `setValue` is `Intent.setv`.
  Spring configuration constants (damping, stiffness, speed, bounciness) and
  easing curves carry no information the claims touch and are not recorded;
  `stopAnimation()` before a `setValue(0)` is likewise subsumed by the
  `setv`.  Intents in one emitted list are fire-and-forget and concurrent;
  ordering inside one `anim`'s segment list is the only sequencing.
* The display state machine {Idle, Invalid, Result} is carried explicitly in
  the controller state next to the source's fields (`heightCm`, `weightKg`,
  `bmi`): the source signals Invalid by the shake plus a cleared `bmi`, and
  Result by a stored `bmi`; the `display` field records which handler branch
  ran last, exactly as the branches of `onCalculate` / `onReset` execute.
-/

/-! ## The JavaScript runtime model -/

/-- The characters `String.prototype.trim` (and `Number`'s own trimming)
removes: the WhiteSpace and LineTerminator code points. -/
def isJsWhitespace (c : Char) : Bool :=
  c == ' ' || c == '\t' || c == '\n' || c == '\r' ||
  c.toNat == 11 || c.toNat == 12 || c.toNat == 0xa0 || c.toNat == 0xfeff ||
  c.toNat == 0x1680 ||
  (decide (0x2000 ≤ c.toNat) && decide (c.toNat ≤ 0x200a)) ||
  c.toNat == 0x2028 || c.toNat == 0x2029 || c.toNat == 0x202f ||
  c.toNat == 0x205f || c.toNat == 0x3000

/-- `String.prototype.trim`. -/
def jsTrim (l : List Char) : List Char :=
  ((l.dropWhile isJsWhitespace).reverse.dropWhile isJsWhitespace).reverse

/-- `input.replace(',', '.')`: with a string pattern, JavaScript `replace`
rewrites only the first occurrence. -/
def replaceFirstComma : List Char → List Char
  | [] => []
  | c :: t => if c = ',' then '.' :: t else c :: replaceFirstComma t

/-- The result of `Number(string)`: NaN, an infinity (sign not tracked), or a
finite value, kept exact. -/
inductive JsNum where
  | nan : JsNum
  | inf : JsNum
  | val (q : ℚ) : JsNum
deriving DecidableEq

def jsNeg : JsNum → JsNum
  | JsNum.nan => JsNum.nan
  | JsNum.inf => JsNum.inf
  | JsNum.val q => JsNum.val (-q)

/-- Value of a string of decimal digits. -/
def digitsVal (l : List Char) : ℕ :=
  l.foldl (fun a c => 10 * a + (c.toNat - 48)) 0

/-- Splitter for the first decimal point. -/
def notDot (c : Char) : Bool := !(c == '.')

/-- Splitter for the first exponent marker. -/
def notExpChar (c : Char) : Bool := !(c == 'e' || c == 'E')

/-- The mantissa part of a StrDecimalLiteral: DecimalDigits, or
DecimalDigits '.' DecimalDigits?, or '.' DecimalDigits (at least one digit,
at most one point, nothing else). -/
def parseMantissa (l : List Char) : Option ℚ :=
  let ip := l.takeWhile notDot
  match l.dropWhile notDot with
  | [] =>
      if ip ≠ [] ∧ ip.all Char.isDigit then some ((digitsVal ip : ℚ)) else none
  | _ :: fp =>
      if (ip ++ fp) ≠ [] ∧ ip.all Char.isDigit ∧ fp.all Char.isDigit then
        some ((digitsVal (ip ++ fp) : ℚ) / 10 ^ fp.length)
      else none

/-- The ExponentPart after the marker: optional sign then decimal digits. -/
def parseExpPart (l : List Char) : Option ℤ :=
  match l with
  | [] => none
  | '+' :: rest =>
      if rest ≠ [] ∧ rest.all Char.isDigit then some ((digitsVal rest : ℤ))
      else none
  | '-' :: rest =>
      if rest ≠ [] ∧ rest.all Char.isDigit then some (-(digitsVal rest : ℤ))
      else none
  | l => if l.all Char.isDigit then some ((digitsVal l : ℤ)) else none

/-- StrUnsignedDecimalLiteral: the keyword Infinity, or a mantissa with an
optional exponent part; anything else is NaN. -/
def jsUnsignedLit (l : List Char) : JsNum :=
  if l = ['I', 'n', 'f', 'i', 'n', 'i', 't', 'y'] then JsNum.inf
  else
    match l.dropWhile notExpChar with
    | [] =>
        match parseMantissa (l.takeWhile notExpChar) with
        | some q => JsNum.val q
        | none => JsNum.nan
    | _ :: ex =>
        match parseMantissa (l.takeWhile notExpChar), parseExpPart ex with
        | some q, some e => JsNum.val (q * (10 : ℚ) ^ e)
        | _, _ => JsNum.nan

def isHexDigitCh (c : Char) : Bool :=
  c.isDigit || (decide (97 ≤ c.toNat) && decide (c.toNat ≤ 102)) ||
  (decide (65 ≤ c.toNat) && decide (c.toNat ≤ 70))

def isOctDigitCh (c : Char) : Bool :=
  decide (48 ≤ c.toNat) && decide (c.toNat ≤ 55)

def isBinDigitCh (c : Char) : Bool := c == '0' || c == '1'

def hexDigVal (c : Char) : ℕ :=
  if c.isDigit then c.toNat - 48
  else if decide (97 ≤ c.toNat) then c.toNat - 87
  else c.toNat - 55

/-- NonDecimalIntegerLiteral body after its 0x / 0o / 0b tag: at least one
digit of the base, nothing else.  No sign is admitted by the grammar. -/
def radixLit (base : ℕ) (isDig : Char → Bool) (dval : Char → ℕ)
    (ds : List Char) : JsNum :=
  if ds ≠ [] ∧ ds.all isDig then
    JsNum.val ((ds.foldl (fun a c => base * a + dval c) 0 : ℕ) : ℚ)
  else JsNum.nan

/-- StrNumericLiteral of a trimmed, non-empty string: a radix literal, or a
sign followed by an unsigned decimal literal, or an unsigned decimal
literal. -/
def jsNumericLit (l : List Char) : JsNum :=
  match l with
  | '0' :: 'x' :: r => radixLit 16 isHexDigitCh hexDigVal r
  | '0' :: 'X' :: r => radixLit 16 isHexDigitCh hexDigVal r
  | '0' :: 'o' :: r => radixLit 8 isOctDigitCh (fun c => c.toNat - 48) r
  | '0' :: 'O' :: r => radixLit 8 isOctDigitCh (fun c => c.toNat - 48) r
  | '0' :: 'b' :: r => radixLit 2 isBinDigitCh (fun c => c.toNat - 48) r
  | '0' :: 'B' :: r => radixLit 2 isBinDigitCh (fun c => c.toNat - 48) r
  | '+' :: r => jsUnsignedLit r
  | '-' :: r => jsNeg (jsUnsignedLit r)
  | _ => jsUnsignedLit l

/-- Any finite double's magnitude is below 2^1024; an exact parsed magnitude
at or above it converts to an infinite double, so `Number.isFinite` fails. -/
def jsOverflowBound : ℚ := ((2 ^ 1024 : ℕ) : ℚ)

/-! ## Animation intents -/

/-- The shared animated values of either screen. -/
inductive Channel where
  | reveal : Channel
  | progress : Channel
  | shakeX : Channel
  | indicatorPop : Channel
deriving DecidableEq

/-- One segment of a started animation. -/
inductive Seg where
  | timing (target : ℚ) (duration : ℕ) : Seg
  | spring (target : ℚ) : Seg
deriving DecidableEq

/-- A side effect on an animated value: a started animation (one or more
sequenced segments) or an immediate `setValue`. -/
inductive Intent where
  | anim (ch : Channel) (segs : List Seg) : Intent
  | setv (ch : Channel) (target : ℚ) : Intent
deriving DecidableEq

def Seg.targetOf : Seg → ℚ
  | Seg.timing t _ => t
  | Seg.spring t => t

def Seg.durationOf : Seg → ℕ
  | Seg.timing _ d => d
  | Seg.spring _ => 0

def Intent.channelOf : Intent → Channel
  | Intent.anim ch _ => ch
  | Intent.setv ch _ => ch

def Intent.segsOf : Intent → List Seg
  | Intent.anim _ s => s
  | Intent.setv _ _ => []

def Intent.isAnim : Intent → Bool
  | Intent.anim _ _ => true
  | Intent.setv _ _ => false

/-! ## First screen variant (react-native-reanimated, dark theme):
lines 28–206 of src/app/index.tsx -/

namespace ScreenA

structure BmiCategory where
  label : String
  rangeLabel : String
  hint : String
  colorClass : String
deriving DecidableEq

/-- `parseNumber`, lines 35–41. -/
def parseNumber (input : String) : Option ℚ :=
  let normalized := jsTrim (replaceFirstComma input.data)
  if normalized = [] then none
  else
    match jsNumericLit normalized with
    | JsNum.val q => if |q| < jsOverflowBound then some q else none
    | _ => none

/-- `getBmiCategory`, lines 43–77. -/
def getBmiCategory (bmi : ℚ) : BmiCategory :=
  if bmi < 18.5 then
    { label := "Underweight"
      rangeLabel := "< 18.5"
      hint := "Try a nutrient-dense diet and strength training. If unsure, check with a clinician."
      colorClass := "text-sky-300" }
  else if bmi < 25 then
    { label := "Normal"
      rangeLabel := "18.5 – 24.9"
      hint := "Nice! Keep a balanced diet and regular activity to maintain."
      colorClass := "text-emerald-300" }
  else if bmi < 30 then
    { label := "Overweight"
      rangeLabel := "25.0 – 29.9"
      hint := "Consider small, sustainable changes: daily steps, protein-forward meals, and sleep."
      colorClass := "text-amber-300" }
  else
    { label := "Obese"
      rangeLabel := "≥ 30.0"
      hint := "A structured plan helps: nutrition, movement, and medical guidance if needed."
      colorClass := "text-rose-300" }

/-- `round1`, lines 79–81: `Math.round(n * 10) / 10` rendered with one
decimal digit.  `Math.round` is floor of the value plus one half. -/
def round1 (n : ℚ) : String :=
  let m : ℤ := Int.floor (n * 10 + 1 / 2)
  (if m < 0 then "-" else "") ++
    toString (m.natAbs / 10) ++ "." ++ toString (m.natAbs % 10)

structure BmiResult where
  value : ℚ
  category : BmiCategory
  scalePosition : ℚ
deriving DecidableEq

/-- The normalized scale position, line 196:
`Math.max(0, Math.min(1, (nextBmi - 10) / 30))`. -/
def normalizedPos (bmi : ℚ) : ℚ := max 0 (min 1 ((bmi - 10) / 30))

inductive EvalOutcome where
  | rejected : EvalOutcome
  | accepted (r : BmiResult) : EvalOutcome
deriving DecidableEq

/-- The pure decision core of `onCalculate`, lines 170–197: the `valid`
check on the parsed values and, on success, the BMI, its category (the
`category` memo, line 105) and the normalized scale position. -/
def evaluate (h w : Option ℚ) : EvalOutcome :=
  match h, w with
  | some h, some w =>
      if 40 < h ∧ h < 260 ∧ 10 < w ∧ w < 400 then
        let heightM := h / 100
        let bmi := w / (heightM * heightM)
        EvalOutcome.accepted
          { value := bmi
            category := getBmiCategory bmi
            scalePosition := normalizedPos bmi }
      else EvalOutcome.rejected
  | _, _ => EvalOutcome.rejected

/-- The display state machine of the screen: Idle before anything is shown,
Invalid after a rejected calculate (shake shown, `bmi` cleared), Result
after an accepted one (`bmi` stored). -/
inductive Display where
  | idle : Display
  | invalid : Display
  | result (r : BmiResult) : Display
deriving DecidableEq

/-- The screen state: the two text fields and `bmi` (lines 84–86), plus the
display-machine mode the handler branches drive. -/
structure State where
  heightCm : String
  weightKg : String
  bmi : Option ℚ
  display : Display
deriving DecidableEq

/-- `useState('')` twice and `useState(null)`, lines 84–86. -/
def initState : State :=
  { heightCm := "", weightKg := "", bmi := none, display := Display.idle }

/-- `triggerInvalidShake`, lines 160–168: one `withSequence` of five timed
legs on `shakeX`. -/
def shakeIntent : Intent :=
  Intent.anim Channel.shakeX
    [Seg.timing (-10) 60, Seg.timing 10 60, Seg.timing (-8) 60,
     Seg.timing 8 60, Seg.timing 0 60]

/-- Effects of the invalid branch of `onCalculate`, lines 182–188. -/
def rejectIntents : List Intent :=
  [shakeIntent,
   Intent.anim Channel.reveal [Seg.timing 0 180],
   Intent.anim Channel.progress [Seg.timing 0 180]]

/-- Effects of the accepted branch of `onCalculate`, lines 190–197. -/
def acceptIntents (pos : ℚ) : List Intent :=
  [Intent.anim Channel.reveal [Seg.spring 1],
   Intent.anim Channel.progress [Seg.timing pos 500]]

/-- Effects of `onReset`, lines 200–206. -/
def resetIntents : List Intent :=
  [Intent.anim Channel.reveal [Seg.timing 0 200],
   Intent.anim Channel.progress [Seg.timing 0 200]]

/-- The outcome `onCalculate` computes from the current field texts via the
`heightValue` / `weightValue` memos (lines 102–103). -/
def outcomeOf (s : State) : EvalOutcome :=
  evaluate (parseNumber s.heightCm) (parseNumber s.weightKg)

/-- `onCalculate`, lines 170–198: next state and emitted intents. -/
def onCalculate (s : State) : State × List Intent :=
  match outcomeOf s with
  | EvalOutcome.rejected =>
      ({ s with bmi := none, display := Display.invalid }, rejectIntents)
  | EvalOutcome.accepted r =>
      ({ s with bmi := some r.value, display := Display.result r },
       acceptIntents r.scalePosition)

/-- `onReset`, lines 200–206. -/
def onReset (_s : State) : State × List Intent :=
  (initState, resetIntents)

end ScreenA

/-! ## Second screen variant (react-native Animated, light theme):
lines 379–590 of src/app/index.tsx -/

namespace ScreenB

structure BmiCategory where
  label : String
  rangeLabel : String
  hint : String
  colorClass : String
  accentHex : String
deriving DecidableEq

/-- `parseNumber`, lines 387–393 (textually identical to the first
variant's). -/
def parseNumber (input : String) : Option ℚ :=
  let normalized := jsTrim (replaceFirstComma input.data)
  if normalized = [] then none
  else
    match jsNumericLit normalized with
    | JsNum.val q => if |q| < jsOverflowBound then some q else none
    | _ => none

/-- `getBmiCategory`, lines 395–433. -/
def getBmiCategory (bmi : ℚ) : BmiCategory :=
  if bmi < 18.5 then
    { label := "Underweight"
      rangeLabel := "< 18.5"
      hint := "Try a nutrient-dense diet and strength training. If unsure, check with a clinician."
      colorClass := "text-orange-700"
      accentHex := "#c2410c" }
  else if bmi < 25 then
    { label := "Normal"
      rangeLabel := "18.5 – 24.9"
      hint := "Nice! Keep a balanced diet and regular activity to maintain."
      colorClass := "text-emerald-700"
      accentHex := "#047857" }
  else if bmi < 30 then
    { label := "Overweight"
      rangeLabel := "25.0 – 29.9"
      hint := "Consider small, sustainable changes: daily steps, protein-forward meals, and sleep."
      colorClass := "text-amber-700"
      accentHex := "#b45309" }
  else
    { label := "Obese"
      rangeLabel := "≥ 30.0"
      hint := "A structured plan helps: nutrition, movement, and medical guidance if needed."
      colorClass := "text-rose-700"
      accentHex := "#be123c" }

/-- `round1`, lines 435–437 (textually identical to the first variant's). -/
def round1 (n : ℚ) : String :=
  let m : ℤ := Int.floor (n * 10 + 1 / 2)
  (if m < 0 then "-" else "") ++
    toString (m.natAbs / 10) ++ "." ++ toString (m.natAbs % 10)

structure BmiResult where
  value : ℚ
  category : BmiCategory
  scalePosition : ℚ
deriving DecidableEq

/-- The normalized scale position, line 571. -/
def normalizedPos (bmi : ℚ) : ℚ := max 0 (min 1 ((bmi - 10) / 30))

inductive EvalOutcome where
  | rejected : EvalOutcome
  | accepted (r : BmiResult) : EvalOutcome
deriving DecidableEq

/-- The pure decision core of `onCalculate`, lines 542–576, with the
`category` memo of line 453. -/
def evaluate (h w : Option ℚ) : EvalOutcome :=
  match h, w with
  | some h, some w =>
      if 40 < h ∧ h < 260 ∧ 10 < w ∧ w < 400 then
        let heightM := h / 100
        let bmi := w / (heightM * heightM)
        EvalOutcome.accepted
          { value := bmi
            category := getBmiCategory bmi
            scalePosition := normalizedPos bmi }
      else EvalOutcome.rejected
  | _, _ => EvalOutcome.rejected

inductive Display where
  | idle : Display
  | invalid : Display
  | result (r : BmiResult) : Display
deriving DecidableEq

structure State where
  heightCm : String
  weightKg : String
  bmi : Option ℚ
  display : Display
deriving DecidableEq

/-- `useState('')` twice and `useState(null)`, lines 440–442. -/
def initState : State :=
  { heightCm := "", weightKg := "", bmi := none, display := Display.idle }

/-- `accentHex` of line 454: the accent of the current category, or the
neutral token when no BMI is stored. -/
def accentFor (bmi : Option ℚ) : String :=
  match bmi with
  | none => "#0f172a"
  | some b => (getBmiCategory b).accentHex

/-- The `Animated.sequence` of five timed legs on `shakeX`,
lines 533–539. -/
def shakeSeqIntent : Intent :=
  Intent.anim Channel.shakeX
    [Seg.timing (-10) 60, Seg.timing 10 60, Seg.timing (-8) 60,
     Seg.timing 8 60, Seg.timing 0 60]

/-- `triggerInvalidShake`, lines 531–540: `setValue(0)` then the
sequence. -/
def shakeIntents : List Intent :=
  [Intent.setv Channel.shakeX 0, shakeSeqIntent]

/-- `triggerIndicatorPop`, lines 517–529: reset the pop value, then start a
sequence of a spring up and a timed settle. -/
def popIntents : List Intent :=
  [Intent.setv Channel.indicatorPop 0,
   Intent.anim Channel.indicatorPop [Seg.spring 1, Seg.timing 0 220]]

/-- Effects of the invalid branch of `onCalculate`, lines 554–562. -/
def rejectIntents : List Intent :=
  shakeIntents ++
    [Intent.setv Channel.indicatorPop 0,
     Intent.anim Channel.reveal [Seg.timing 0 160],
     Intent.anim Channel.progress [Seg.timing 0 180]]

/-- Effects of the accepted branch of `onCalculate`, lines 565–578. -/
def acceptIntents (pos : ℚ) : List Intent :=
  [Intent.anim Channel.reveal [Seg.timing 1 220],
   Intent.anim Channel.progress [Seg.timing pos 480]] ++ popIntents

/-- Effects of `onReset`, lines 581–590. -/
def resetIntents : List Intent :=
  [Intent.setv Channel.indicatorPop 0,
   Intent.anim Channel.reveal [Seg.timing 0 160],
   Intent.anim Channel.progress [Seg.timing 0 180]]

def outcomeOf (s : State) : EvalOutcome :=
  evaluate (parseNumber s.heightCm) (parseNumber s.weightKg)

/-- `onCalculate`, lines 542–579. -/
def onCalculate (s : State) : State × List Intent :=
  match outcomeOf s with
  | EvalOutcome.rejected =>
      ({ s with bmi := none, display := Display.invalid }, rejectIntents)
  | EvalOutcome.accepted r =>
      ({ s with bmi := some r.value, display := Display.result r },
       acceptIntents r.scalePosition)

/-- `onReset`, lines 581–590. -/
def onReset (_s : State) : State × List Intent :=
  (initState, resetIntents)

end ScreenB

/-! ## Lemmas on the runtime model -/

theorem dropWhile_eq_nil_of_all {p : Char → Bool} :
    ∀ {l : List Char}, l.all p = true → l.dropWhile p = [] := by
  intro l h
  induction l with
  | nil => rfl
  | cons c t ih =>
      rw [List.all_cons, Bool.and_eq_true] at h
      rw [List.dropWhile_cons, h.1]
      simpa using ih h.2

theorem jsTrim_eq_nil_of_all_ws {l : List Char}
    (h : l.all isJsWhitespace = true) : jsTrim l = [] := by
  simp [jsTrim, dropWhile_eq_nil_of_all h]

theorem replaceFirstComma_of_not_mem :
    ∀ {l : List Char}, ',' ∉ l → replaceFirstComma l = l := by
  intro l h
  induction l with
  | nil => rfl
  | cons c t ih =>
      have hc : ¬ c = ',' := fun hc => h (by simp [hc])
      rw [replaceFirstComma, if_neg hc,
        ih (fun ht => h (List.mem_cons_of_mem c ht))]

theorem mem_dropWhile_of_mem {p : Char → Bool} {a : Char} :
    ∀ {l : List Char}, a ∈ l → p a = false → a ∈ l.dropWhile p := by
  intro l h hpa
  induction l with
  | nil => exact absurd h (List.not_mem_nil a)
  | cons c t ih =>
      rw [List.dropWhile_cons]
      cases hc : p c with
      | false => simpa [hc] using h
      | true =>
          rcases List.mem_cons.mp h with rfl | ht
          · rw [hpa] at hc; cases hc
          · simpa [hc] using ih ht

theorem comma_mem_jsTrim {l : List Char} (h : ',' ∈ l) : ',' ∈ jsTrim l := by
  have h1 : ',' ∈ l.dropWhile isJsWhitespace :=
    mem_dropWhile_of_mem h (by decide)
  have h2 : ',' ∈ (l.dropWhile isJsWhitespace).reverse.dropWhile isJsWhitespace :=
    mem_dropWhile_of_mem (List.mem_reverse.mpr h1) (by decide)
  rw [jsTrim]
  exact List.mem_reverse.mpr h2

theorem comma_mem_replaceFirst :
    ∀ {l : List Char}, 2 ≤ l.count ',' → ',' ∈ replaceFirstComma l := by
  intro l h
  induction l with
  | nil => simp [List.count_nil] at h
  | cons c t ih =>
      by_cases hc : c = ','
      · subst hc
        rw [replaceFirstComma, if_pos rfl]
        have h1 : 1 ≤ t.count ',' := by
          rw [List.count_cons_self] at h
          omega
        have h2 : ',' ∈ t := by
          rw [← List.count_pos_iff]
          omega
        exact List.mem_cons_of_mem _ h2
      · have h2 : 2 ≤ t.count ',' := by
          rw [List.count_cons] at h
          simp [hc] at h
          omega
        rw [replaceFirstComma, if_neg hc]
        exact List.mem_cons_of_mem _ (ih h2)

theorem dropWhile_head_false {p : Char → Bool} :
    ∀ {l : List Char} {d : Char} {t : List Char},
      l.dropWhile p = d :: t → p d = false := by
  intro l
  induction l with
  | nil => intro d t h; cases h
  | cons c r ih =>
      intro d t h
      rw [List.dropWhile_cons] at h
      cases hc : p c with
      | true => rw [hc] at h; simp at h; exact ih h
      | false =>
          rw [hc] at h
          simp at h
          rw [← h.1]
          exact hc

theorem parseMantissa_comma {l : List Char} (h : ',' ∈ l) :
    parseMantissa l = none := by
  have he : l.takeWhile notDot ++ l.dropWhile notDot = l :=
    List.takeWhile_append_dropWhile notDot l
  have hsplit : ',' ∈ l.takeWhile notDot ∨ ',' ∈ l.dropWhile notDot := by
    rw [← he] at h
    exact List.mem_append.mp h
  cases hd : l.dropWhile notDot with
  | nil =>
      rcases hsplit with hm | hm
      · simp only [parseMantissa, hd]
        rw [if_neg]
        exact fun hc => absurd (List.all_eq_true.mp hc.2 ',' hm) (by decide)
      · rw [hd] at hm
        simp at hm
  | cons d fp =>
      have hdnot : notDot d = false := dropWhile_head_false hd
      rcases hsplit with hm | hm
      · simp only [parseMantissa, hd]
        rw [if_neg]
        exact fun hc => absurd (List.all_eq_true.mp hc.2.1 ',' hm) (by decide)
      · rw [hd] at hm
        rcases List.mem_cons.mp hm with hce | hfp
        · rw [← hce] at hdnot
          simp [notDot] at hdnot
        · simp only [parseMantissa, hd]
          rw [if_neg]
          exact fun hc => absurd (List.all_eq_true.mp hc.2.2 ',' hfp) (by decide)

theorem parseExpPart_comma {l : List Char} (h : ',' ∈ l) :
    parseExpPart l = none := by
  unfold parseExpPart
  split
  · simp at h
  next rest =>
    have hr : ',' ∈ rest := by
      rcases List.mem_cons.mp h with h1 | h1
      · exact absurd h1 (by decide)
      · exact h1
    rw [if_neg]
    exact fun hc => absurd (List.all_eq_true.mp hc.2 ',' hr) (by decide)
  next rest =>
    have hr : ',' ∈ rest := by
      rcases List.mem_cons.mp h with h1 | h1
      · exact absurd h1 (by decide)
      · exact h1
    rw [if_neg]
    exact fun hc => absurd (List.all_eq_true.mp hc.2 ',' hr) (by decide)
  next =>
    rw [if_neg]
    exact fun hc => absurd (List.all_eq_true.mp hc ',' h) (by decide)

theorem jsUnsignedLit_comma {l : List Char} (h : ',' ∈ l) :
    jsUnsignedLit l = JsNum.nan := by
  have hne : l ≠ ['I', 'n', 'f', 'i', 'n', 'i', 't', 'y'] := by
    intro heq
    rw [heq] at h
    exact absurd h (by decide)
  have he : l.takeWhile notExpChar ++ l.dropWhile notExpChar = l :=
    List.takeWhile_append_dropWhile notExpChar l
  have hsplit : ',' ∈ l.takeWhile notExpChar ∨ ',' ∈ l.dropWhile notExpChar := by
    rw [← he] at h
    exact List.mem_append.mp h
  rw [jsUnsignedLit, if_neg hne]
  cases hd : l.dropWhile notExpChar with
  | nil =>
      rcases hsplit with hm | hm
      · simp [parseMantissa_comma hm]
      · rw [hd] at hm
        simp at hm
  | cons e ex =>
      rcases hsplit with hm | hm
      · simp [parseMantissa_comma hm]
      · have henot : notExpChar e = false := dropWhile_head_false hd
        rw [hd] at hm
        rcases List.mem_cons.mp hm with hce | hex
        · rw [← hce] at henot
          simp [notExpChar] at henot
        · cases hp : parseMantissa (l.takeWhile notExpChar) <;>
            simp [hp, parseExpPart_comma hex]

theorem radixLit_comma {r : List Char} (base : ℕ) (isDig : Char → Bool)
    (dval : Char → ℕ) (hd : isDig ',' = false) (h : ',' ∈ r) :
    radixLit base isDig dval r = JsNum.nan := by
  rw [radixLit, if_neg]
  exact fun hc => absurd (List.all_eq_true.mp hc.2 ',' h) (by simp [hd])

theorem comma_tail2 {a b : Char} {r : List Char} (ha : ¬ a = ',')
    (hb : ¬ b = ',') (h : ',' ∈ a :: b :: r) : ',' ∈ r := by
  rcases List.mem_cons.mp h with h1 | h1
  · exact absurd h1.symm ha
  · rcases List.mem_cons.mp h1 with h2 | h2
    · exact absurd h2.symm hb
    · exact h2

theorem jsNumericLit_comma {l : List Char} (h : ',' ∈ l) :
    jsNumericLit l = JsNum.nan := by
  rw [jsNumericLit.eq_def]
  split
  · exact radixLit_comma _ _ _ (by decide) (comma_tail2 (by decide) (by decide) h)
  · exact radixLit_comma _ _ _ (by decide) (comma_tail2 (by decide) (by decide) h)
  · exact radixLit_comma _ _ _ (by decide) (comma_tail2 (by decide) (by decide) h)
  · exact radixLit_comma _ _ _ (by decide) (comma_tail2 (by decide) (by decide) h)
  · exact radixLit_comma _ _ _ (by decide) (comma_tail2 (by decide) (by decide) h)
  · exact radixLit_comma _ _ _ (by decide) (comma_tail2 (by decide) (by decide) h)
  next r =>
      have hr : ',' ∈ r := by
        rcases List.mem_cons.mp h with h1 | h1
        · exact absurd h1 (by decide)
        · exact h1
      exact jsUnsignedLit_comma hr
  next r =>
      have hr : ',' ∈ r := by
        rcases List.mem_cons.mp h with h1 | h1
        · exact absurd h1 (by decide)
        · exact h1
      rw [jsUnsignedLit_comma hr]
      rfl
  next =>
      exact jsUnsignedLit_comma h

/-- The two variants' `parseNumber` functions are the same function. -/
theorem parseNumber_eq_variants (s : String) :
    ScreenA.parseNumber s = ScreenB.parseNumber s := rfl

theorem parseNumber_all_ws {s : String}
    (h : s.data.all isJsWhitespace = true) : ScreenA.parseNumber s = none := by
  have hnc : ',' ∉ s.data := fun hm =>
    absurd (List.all_eq_true.mp h ',' hm) (by decide)
  simp only [ScreenA.parseNumber]
  rw [replaceFirstComma_of_not_mem hnc, jsTrim_eq_nil_of_all_ws h]
  simp

theorem parseNumber_two_commas {s : String} (h : 2 ≤ s.data.count ',') :
    ScreenA.parseNumber s = none := by
  have hm : ',' ∈ jsTrim (replaceFirstComma s.data) :=
    comma_mem_jsTrim (comma_mem_replaceFirst h)
  have hne : jsTrim (replaceFirstComma s.data) ≠ [] := by
    intro he
    rw [he] at hm
    simp at hm
  simp only [ScreenA.parseNumber]
  rw [if_neg hne, jsNumericLit_comma hm]

/-- Inversion of an accepted evaluation of the first variant. -/
theorem evaluateA_accepted_inv {oh ow : Option ℚ} {r : ScreenA.BmiResult}
    (heq : ScreenA.evaluate oh ow = ScreenA.EvalOutcome.accepted r) :
    ∃ h w : ℚ, oh = some h ∧ ow = some w ∧
      (40 < h ∧ h < 260 ∧ 10 < w ∧ w < 400) ∧
      r = { value := w / (h / 100 * (h / 100))
            category := ScreenA.getBmiCategory (w / (h / 100 * (h / 100)))
            scalePosition := ScreenA.normalizedPos (w / (h / 100 * (h / 100))) } := by
  cases oh with
  | none => simp [ScreenA.evaluate] at heq
  | some h =>
      cases ow with
      | none => simp [ScreenA.evaluate] at heq
      | some w =>
          by_cases hc : 40 < h ∧ h < 260 ∧ 10 < w ∧ w < 400
          · simp only [ScreenA.evaluate] at heq
            rw [if_pos hc] at heq
            exact ⟨h, w, rfl, rfl, hc, (ScreenA.EvalOutcome.accepted.inj heq).symm⟩
          · simp only [ScreenA.evaluate] at heq
            rw [if_neg hc] at heq
            simp at heq

/-- Inversion of an accepted evaluation of the second variant. -/
theorem evaluateB_accepted_inv {oh ow : Option ℚ} {r : ScreenB.BmiResult}
    (heq : ScreenB.evaluate oh ow = ScreenB.EvalOutcome.accepted r) :
    ∃ h w : ℚ, oh = some h ∧ ow = some w ∧
      (40 < h ∧ h < 260 ∧ 10 < w ∧ w < 400) ∧
      r = { value := w / (h / 100 * (h / 100))
            category := ScreenB.getBmiCategory (w / (h / 100 * (h / 100)))
            scalePosition := ScreenB.normalizedPos (w / (h / 100 * (h / 100))) } := by
  cases oh with
  | none => simp [ScreenB.evaluate] at heq
  | some h =>
      cases ow with
      | none => simp [ScreenB.evaluate] at heq
      | some w =>
          by_cases hc : 40 < h ∧ h < 260 ∧ 10 < w ∧ w < 400
          · simp only [ScreenB.evaluate] at heq
            rw [if_pos hc] at heq
            exact ⟨h, w, rfl, rfl, hc, (ScreenB.EvalOutcome.accepted.inj heq).symm⟩
          · simp only [ScreenB.evaluate] at heq
            rw [if_neg hc] at heq
            simp at heq

/-- The first variant rejects exactly outside the open bounds. -/
theorem evaluateA_rejected_iff (oh ow : Option ℚ) :
    ScreenA.evaluate oh ow = ScreenA.EvalOutcome.rejected ↔
      ¬ ∃ h w : ℚ, oh = some h ∧ ow = some w ∧
        40 < h ∧ h < 260 ∧ 10 < w ∧ w < 400 := by
  cases oh with
  | none => simp [ScreenA.evaluate]
  | some h =>
      cases ow with
      | none => simp [ScreenA.evaluate]
      | some w =>
          by_cases hc : 40 < h ∧ h < 260 ∧ 10 < w ∧ w < 400
          · simp only [ScreenA.evaluate]
            rw [if_pos hc]
            simp [hc]
          · simp only [ScreenA.evaluate]
            rw [if_neg hc]
            simp [hc]

/-- The second variant rejects exactly outside the open bounds. -/
theorem evaluateB_rejected_iff (oh ow : Option ℚ) :
    ScreenB.evaluate oh ow = ScreenB.EvalOutcome.rejected ↔
      ¬ ∃ h w : ℚ, oh = some h ∧ ow = some w ∧
        40 < h ∧ h < 260 ∧ 10 < w ∧ w < 400 := by
  cases oh with
  | none => simp [ScreenB.evaluate]
  | some h =>
      cases ow with
      | none => simp [ScreenB.evaluate]
      | some w =>
          by_cases hc : 40 < h ∧ h < 260 ∧ 10 < w ∧ w < 400
          · simp only [ScreenB.evaluate]
            rw [if_pos hc]
            simp [hc]
          · simp only [ScreenB.evaluate]
            rw [if_neg hc]
            simp [hc]

/-! ## The claims -/

/-- C1: for every pair of present parsed values with height strictly between
40 and 260 and weight strictly between 10 and 400, `evaluate` (the accepted
path of `onCalculate`, in both screen variants) returns Accepted with
`bmi = weight / (height/100)^2` exactly: the stored value is the exact
quotient, with no rounding applied. -/
theorem c1_accepted_bmi_exact (h w : ℚ) (h1 : 40 < h) (h2 : h < 260)
    (h3 : 10 < w) (h4 : w < 400) :
    (∃ ra : ScreenA.BmiResult,
        ScreenA.evaluate (some h) (some w) = ScreenA.EvalOutcome.accepted ra ∧
        ra.value = w / (h / 100) ^ 2) ∧
    (∃ rb : ScreenB.BmiResult,
        ScreenB.evaluate (some h) (some w) = ScreenB.EvalOutcome.accepted rb ∧
        rb.value = w / (h / 100) ^ 2) := by
  have hc : 40 < h ∧ h < 260 ∧ 10 < w ∧ w < 400 := ⟨h1, h2, h3, h4⟩
  have hA : ScreenA.evaluate (some h) (some w) = ScreenA.EvalOutcome.accepted
      { value := w / (h / 100 * (h / 100))
        category := ScreenA.getBmiCategory (w / (h / 100 * (h / 100)))
        scalePosition := ScreenA.normalizedPos (w / (h / 100 * (h / 100))) } := by
    simp only [ScreenA.evaluate]
    rw [if_pos hc]
  have hB : ScreenB.evaluate (some h) (some w) = ScreenB.EvalOutcome.accepted
      { value := w / (h / 100 * (h / 100))
        category := ScreenB.getBmiCategory (w / (h / 100 * (h / 100)))
        scalePosition := ScreenB.normalizedPos (w / (h / 100 * (h / 100))) } := by
    simp only [ScreenB.evaluate]
    rw [if_pos hc]
  have hval : w / (h / 100 * (h / 100)) = w / (h / 100) ^ 2 := by rw [pow_two]
  exact ⟨⟨_, hA, hval⟩, ⟨_, hB, hval⟩⟩

/-- Witness for C1 at height 160, weight 64 (BMI exactly 25). -/
theorem c1_accepted_bmi_exact_witness :
    (∃ ra : ScreenA.BmiResult,
        ScreenA.evaluate (some 160) (some 64) = ScreenA.EvalOutcome.accepted ra ∧
        ra.value = 64 / ((160 : ℚ) / 100) ^ 2) ∧
    (∃ rb : ScreenB.BmiResult,
        ScreenB.evaluate (some 160) (some 64) = ScreenB.EvalOutcome.accepted rb ∧
        rb.value = 64 / ((160 : ℚ) / 100) ^ 2) :=
  c1_accepted_bmi_exact 160 64 (by norm_num) (by norm_num) (by norm_num)
    (by norm_num)

/-- C2: in both variants, evaluation rejects exactly when an input is absent
or out of the open bounds (40, 260) resp. (10, 400); the four boundary
values are rejected, and every input yields a definite outcome (Rejected or
Accepted), never anything else. -/
theorem c2_rejected_iff_invalid :
    (∀ oh ow : Option ℚ,
        ScreenA.evaluate oh ow = ScreenA.EvalOutcome.rejected ↔
          ¬ ∃ h w : ℚ, oh = some h ∧ ow = some w ∧
            40 < h ∧ h < 260 ∧ 10 < w ∧ w < 400) ∧
    (∀ oh ow : Option ℚ,
        ScreenB.evaluate oh ow = ScreenB.EvalOutcome.rejected ↔
          ¬ ∃ h w : ℚ, oh = some h ∧ ow = some w ∧
            40 < h ∧ h < 260 ∧ 10 < w ∧ w < 400) ∧
    ScreenA.evaluate (some 40) (some 70) = ScreenA.EvalOutcome.rejected ∧
    ScreenA.evaluate (some 260) (some 70) = ScreenA.EvalOutcome.rejected ∧
    ScreenA.evaluate (some 170) (some 10) = ScreenA.EvalOutcome.rejected ∧
    ScreenA.evaluate (some 170) (some 400) = ScreenA.EvalOutcome.rejected ∧
    ScreenB.evaluate (some 40) (some 70) = ScreenB.EvalOutcome.rejected ∧
    ScreenB.evaluate (some 260) (some 70) = ScreenB.EvalOutcome.rejected ∧
    ScreenB.evaluate (some 170) (some 10) = ScreenB.EvalOutcome.rejected ∧
    ScreenB.evaluate (some 170) (some 400) = ScreenB.EvalOutcome.rejected ∧
    (∀ oh ow : Option ℚ,
        ScreenA.evaluate oh ow = ScreenA.EvalOutcome.rejected ∨
          ∃ r, ScreenA.evaluate oh ow = ScreenA.EvalOutcome.accepted r) ∧
    (∀ oh ow : Option ℚ,
        ScreenB.evaluate oh ow = ScreenB.EvalOutcome.rejected ∨
          ∃ r, ScreenB.evaluate oh ow = ScreenB.EvalOutcome.accepted r) := by
  refine ⟨evaluateA_rejected_iff, evaluateB_rejected_iff, by decide, by decide,
    by decide, by decide, by decide, by decide, by decide, by decide, ?_, ?_⟩
  · intro oh ow
    cases hev : ScreenA.evaluate oh ow with
    | rejected => exact Or.inl rfl
    | accepted r => exact Or.inr ⟨r, rfl⟩
  · intro oh ow
    cases hev : ScreenB.evaluate oh ow with
    | rejected => exact Or.inl rfl
    | accepted r => exact Or.inr ⟨r, rfl⟩

/-- C3: classification uses half-open intervals with inclusive lower bounds,
in both variants (their labels agree for every BMI): below 18.5 Underweight,
from 18.5 below 25 Normal, from 25 below 30 Overweight, from 30 Obese; in
particular 18.5 is Normal, 25 is Overweight and 30 is Obese. -/
theorem c3_classification_thresholds :
    (∀ b : ℚ,
        ((ScreenA.getBmiCategory b).label = "Underweight" ↔ b < 18.5) ∧
        ((ScreenA.getBmiCategory b).label = "Normal" ↔ 18.5 ≤ b ∧ b < 25) ∧
        ((ScreenA.getBmiCategory b).label = "Overweight" ↔ 25 ≤ b ∧ b < 30) ∧
        ((ScreenA.getBmiCategory b).label = "Obese" ↔ 30 ≤ b) ∧
        (ScreenA.getBmiCategory b).label = (ScreenB.getBmiCategory b).label) ∧
    (ScreenA.getBmiCategory 18.5).label = "Normal" ∧
    (ScreenA.getBmiCategory 25).label = "Overweight" ∧
    (ScreenA.getBmiCategory 30).label = "Obese" ∧
    (ScreenB.getBmiCategory 18.5).label = "Normal" ∧
    (ScreenB.getBmiCategory 25).label = "Overweight" ∧
    (ScreenB.getBmiCategory 30).label = "Obese" := by
  refine ⟨?_, by decide, by decide, by decide, by decide, by decide, by decide⟩
  intro b
  rw [ScreenA.getBmiCategory, ScreenB.getBmiCategory]
  by_cases h1 : b < 18.5
  · rw [if_pos h1, if_pos h1]
    exact ⟨iff_of_true rfl h1,
      iff_of_false (by decide) (fun hc => absurd hc.1 (not_le.mpr h1)),
      iff_of_false (by decide)
        (fun hc => absurd hc.1 (not_le.mpr (h1.trans (by norm_num)))),
      iff_of_false (by decide) (not_le.mpr (h1.trans (by norm_num))), rfl⟩
  · rw [if_neg h1, if_neg h1]
    by_cases h2 : b < 25
    · rw [if_pos h2, if_pos h2]
      exact ⟨iff_of_false (by decide) h1,
        iff_of_true rfl ⟨not_lt.mp h1, h2⟩,
        iff_of_false (by decide) (fun hc => absurd hc.1 (not_le.mpr h2)),
        iff_of_false (by decide) (not_le.mpr (h2.trans (by norm_num))), rfl⟩
    · rw [if_neg h2, if_neg h2]
      by_cases h3 : b < 30
      · rw [if_pos h3, if_pos h3]
        exact ⟨iff_of_false (by decide) h1,
          iff_of_false (by decide) (fun hc => absurd hc.2 h2),
          iff_of_true rfl ⟨not_lt.mp h2, h3⟩,
          iff_of_false (by decide) (not_le.mpr h3), rfl⟩
      · rw [if_neg h3, if_neg h3]
        exact ⟨iff_of_false (by decide) h1,
          iff_of_false (by decide) (fun hc => absurd hc.2 h2),
          iff_of_false (by decide) (fun hc => absurd hc.2 h3),
          iff_of_true rfl (not_lt.mp h3), rfl⟩

/-- C4: every accepted result's scale position is the clamp of
(bmi - 10) / 30 to [0, 1] (both variants), hence always within [0, 1];
BMI 10 maps to 0, 25 to 1/2, 40 to 1, and values below 10 or above 40
saturate at 0 resp. 1. -/
theorem c4_scale_position_clamped :
    (∀ h w : ℚ, ∀ r : ScreenA.BmiResult,
        ScreenA.evaluate (some h) (some w) = ScreenA.EvalOutcome.accepted r →
        r.scalePosition = max 0 (min 1 ((r.value - 10) / 30)) ∧
        0 ≤ r.scalePosition ∧ r.scalePosition ≤ 1) ∧
    (∀ h w : ℚ, ∀ r : ScreenB.BmiResult,
        ScreenB.evaluate (some h) (some w) = ScreenB.EvalOutcome.accepted r →
        r.scalePosition = max 0 (min 1 ((r.value - 10) / 30)) ∧
        0 ≤ r.scalePosition ∧ r.scalePosition ≤ 1) ∧
    ScreenA.normalizedPos 10 = 0 ∧
    ScreenA.normalizedPos 25 = 1 / 2 ∧
    ScreenA.normalizedPos 40 = 1 ∧
    (∀ b : ℚ, b ≤ 10 → ScreenA.normalizedPos b = 0) ∧
    (∀ b : ℚ, 40 ≤ b → ScreenA.normalizedPos b = 1) := by
  have hnn : ∀ x : ℚ, 0 ≤ max 0 (min 1 ((x - 10) / 30)) := fun x => le_max_left 0 _
  have hle : ∀ x : ℚ, max 0 (min 1 ((x - 10) / 30)) ≤ 1 := fun x =>
    max_le (by norm_num) (min_le_left 1 _)
  refine ⟨?_, ?_, by decide, by decide, by decide, ?_, ?_⟩
  · intro h w r heq
    obtain ⟨h2, w2, hh, hw, hc, hr⟩ := evaluateA_accepted_inv heq
    subst hr
    exact ⟨rfl, hnn _, hle _⟩
  · intro h w r heq
    obtain ⟨h2, w2, hh, hw, hc, hr⟩ := evaluateB_accepted_inv heq
    subst hr
    exact ⟨rfl, hnn _, hle _⟩
  · intro b hb
    have hx : (b - 10) / 30 ≤ 0 := by
      rw [div_nonpos_iff]
      exact Or.inr ⟨by linarith, by norm_num⟩
    rw [ScreenA.normalizedPos, min_eq_right (hx.trans zero_le_one),
      max_eq_left hx]
  · intro b hb
    have hx : 1 ≤ (b - 10) / 30 := by
      rw [le_div_iff₀ (by norm_num : (0 : ℚ) < 30)]
      linarith
    rw [ScreenA.normalizedPos, min_eq_left hx, max_eq_right zero_le_one]

/-- C5: `parseNumber` (the same pure function in both variants) yields
absent on empty or whitespace-only text and on non-numeric or non-finite
text, normalizes a comma decimal separator to a period with whitespace
trimmed, and otherwise returns the parsed value: parse "" and parse "  "
are absent, parse "68" is 68, parse "68,5" is 68.5, parse "abc" and
parse "1e400" (non-finite) are absent. -/
theorem c5_parse_contract :
    (∀ s : String, s.data.all isJsWhitespace = true →
        ScreenA.parseNumber s = none ∧ ScreenB.parseNumber s = none) ∧
    ScreenA.parseNumber "" = none ∧
    ScreenA.parseNumber "  " = none ∧
    ScreenA.parseNumber "68" = some 68 ∧
    ScreenA.parseNumber "68,5" = some 68.5 ∧
    ScreenA.parseNumber "abc" = none ∧
    ScreenA.parseNumber "1e400" = none ∧
    (∀ s : String, ScreenA.parseNumber s = ScreenB.parseNumber s) := by
  refine ⟨?_, by decide, by decide, by decide, by decide, by decide, by decide,
    parseNumber_eq_variants⟩
  intro s h
  have ha := parseNumber_all_ws h
  exact ⟨ha, (parseNumber_eq_variants s) ▸ ha⟩

/-- C6: both variants drive the display state machine {Idle, Invalid,
Result} with Idle initial: from any state, a rejected calculate moves to
Invalid and emits the shake plus the result-retracting intents, an accepted
calculate moves to Result carrying that result, and reset moves to Idle,
clears both input texts and retracts the result card and fill to zero; no
state is terminal. -/
theorem c6_display_state_machine :
    ScreenA.initState.display = ScreenA.Display.idle ∧
    ScreenB.initState.display = ScreenB.Display.idle ∧
    (∀ s : ScreenA.State,
        (ScreenA.outcomeOf s = ScreenA.EvalOutcome.rejected →
            (ScreenA.onCalculate s).1.display = ScreenA.Display.invalid ∧
            ScreenA.shakeIntent ∈ (ScreenA.onCalculate s).2 ∧
            Intent.anim Channel.reveal [Seg.timing 0 180] ∈
              (ScreenA.onCalculate s).2 ∧
            Intent.anim Channel.progress [Seg.timing 0 180] ∈
              (ScreenA.onCalculate s).2) ∧
        (∀ r : ScreenA.BmiResult,
            ScreenA.outcomeOf s = ScreenA.EvalOutcome.accepted r →
            (ScreenA.onCalculate s).1.display = ScreenA.Display.result r) ∧
        (ScreenA.onReset s).1 = ScreenA.initState ∧
        Intent.anim Channel.reveal [Seg.timing 0 200] ∈ (ScreenA.onReset s).2 ∧
        Intent.anim Channel.progress [Seg.timing 0 200] ∈ (ScreenA.onReset s).2) ∧
    (∀ s : ScreenB.State,
        (ScreenB.outcomeOf s = ScreenB.EvalOutcome.rejected →
            (ScreenB.onCalculate s).1.display = ScreenB.Display.invalid ∧
            ScreenB.shakeSeqIntent ∈ (ScreenB.onCalculate s).2 ∧
            Intent.anim Channel.reveal [Seg.timing 0 160] ∈
              (ScreenB.onCalculate s).2 ∧
            Intent.anim Channel.progress [Seg.timing 0 180] ∈
              (ScreenB.onCalculate s).2) ∧
        (∀ r : ScreenB.BmiResult,
            ScreenB.outcomeOf s = ScreenB.EvalOutcome.accepted r →
            (ScreenB.onCalculate s).1.display = ScreenB.Display.result r) ∧
        (ScreenB.onReset s).1 = ScreenB.initState ∧
        Intent.anim Channel.reveal [Seg.timing 0 160] ∈ (ScreenB.onReset s).2 ∧
        Intent.anim Channel.progress [Seg.timing 0 180] ∈ (ScreenB.onReset s).2) := by
  refine ⟨rfl, rfl, ?_, ?_⟩
  · intro s
    refine ⟨fun hout => ?_, fun r hout => ?_, rfl,
      show Intent.anim Channel.reveal [Seg.timing 0 200] ∈
        ScreenA.resetIntents by decide,
      show Intent.anim Channel.progress [Seg.timing 0 200] ∈
        ScreenA.resetIntents by decide⟩
    · have hcal : ScreenA.onCalculate s =
          ({ s with bmi := none, display := ScreenA.Display.invalid },
            ScreenA.rejectIntents) := by
        rw [ScreenA.onCalculate.eq_def, hout]
      rw [hcal]
      exact ⟨rfl,
        show ScreenA.shakeIntent ∈ ScreenA.rejectIntents by decide,
        show Intent.anim Channel.reveal [Seg.timing 0 180] ∈
          ScreenA.rejectIntents by decide,
        show Intent.anim Channel.progress [Seg.timing 0 180] ∈
          ScreenA.rejectIntents by decide⟩
    · have hcal : ScreenA.onCalculate s =
          ({ s with bmi := some r.value, display := ScreenA.Display.result r },
            ScreenA.acceptIntents r.scalePosition) := by
        rw [ScreenA.onCalculate.eq_def, hout]
      rw [hcal]
  · intro s
    refine ⟨fun hout => ?_, fun r hout => ?_, rfl,
      show Intent.anim Channel.reveal [Seg.timing 0 160] ∈
        ScreenB.resetIntents by decide,
      show Intent.anim Channel.progress [Seg.timing 0 180] ∈
        ScreenB.resetIntents by decide⟩
    · have hcal : ScreenB.onCalculate s =
          ({ s with bmi := none, display := ScreenB.Display.invalid },
            ScreenB.rejectIntents) := by
        rw [ScreenB.onCalculate.eq_def, hout]
      rw [hcal]
      exact ⟨rfl,
        show ScreenB.shakeSeqIntent ∈ ScreenB.rejectIntents by decide,
        show Intent.anim Channel.reveal [Seg.timing 0 160] ∈
          ScreenB.rejectIntents by decide,
        show Intent.anim Channel.progress [Seg.timing 0 180] ∈
          ScreenB.rejectIntents by decide⟩
    · have hcal : ScreenB.onCalculate s =
          ({ s with bmi := some r.value, display := ScreenB.Display.result r },
            ScreenB.acceptIntents r.scalePosition) := by
        rw [ScreenB.onCalculate.eq_def, hout]
      rw [hcal]

/-- C7 counterexample: height "160", weight "64" is an accepted evaluation
(not rejected), yet the first (reanimated) screen variant's `onCalculate`
emits only two animation intents — reveal and fill — and none of its
intents targets the pop channel, so "the controller emits exactly three
animation intents: reveal, fill and pop" fails on that variant. -/
theorem c7_counterexample_first_variant_no_pop :
    ScreenA.outcomeOf
      { heightCm := "160", weightKg := "64", bmi := none,
        display := ScreenA.Display.idle } ≠ ScreenA.EvalOutcome.rejected ∧
    ((ScreenA.onCalculate
      { heightCm := "160", weightKg := "64", bmi := none,
        display := ScreenA.Display.idle }).2.filter Intent.isAnim).length = 2 ∧
    (ScreenA.onCalculate
      { heightCm := "160", weightKg := "64", bmi := none,
        display := ScreenA.Display.idle }).2.map Intent.channelOf =
      [Channel.reveal, Channel.progress] := by decide

/-- C7 (amended): on every accepted evaluation the second (RN Animated)
variant emits exactly three animation intents — a reveal of the result card,
a fill of the scale to the result's scalePosition whose displayed color is
the result category's accent, and a pop of the indicator (spring up, timed
settle) — as separate concurrent intents on three distinct channels, the pop
not sequenced after the fill; the first (reanimated) variant emits only the
reveal and fill intents, with no pop. -/
theorem c7_accept_intents_by_variant :
    (∀ s : ScreenB.State, ∀ r : ScreenB.BmiResult,
        ScreenB.outcomeOf s = ScreenB.EvalOutcome.accepted r →
        (ScreenB.onCalculate s).2.filter Intent.isAnim =
          [Intent.anim Channel.reveal [Seg.timing 1 220],
           Intent.anim Channel.progress [Seg.timing r.scalePosition 480],
           Intent.anim Channel.indicatorPop [Seg.spring 1, Seg.timing 0 220]] ∧
        ((ScreenB.onCalculate s).2.filter Intent.isAnim).map Intent.channelOf =
          [Channel.reveal, Channel.progress, Channel.indicatorPop] ∧
        ScreenB.accentFor (ScreenB.onCalculate s).1.bmi =
          r.category.accentHex) ∧
    (∀ s : ScreenA.State, ∀ r : ScreenA.BmiResult,
        ScreenA.outcomeOf s = ScreenA.EvalOutcome.accepted r →
        (ScreenA.onCalculate s).2 =
          [Intent.anim Channel.reveal [Seg.spring 1],
           Intent.anim Channel.progress [Seg.timing r.scalePosition 500]] ∧
        (ScreenA.onCalculate s).2.map Intent.channelOf =
          [Channel.reveal, Channel.progress]) := by
  constructor
  · intro s r hout
    have hcal : ScreenB.onCalculate s =
        ({ s with bmi := some r.value, display := ScreenB.Display.result r },
          ScreenB.acceptIntents r.scalePosition) := by
      rw [ScreenB.onCalculate.eq_def, hout]
    rw [hcal]
    obtain ⟨h2, w2, hh, hw, hc, hr⟩ := evaluateB_accepted_inv hout
    subst hr
    exact ⟨rfl, rfl, rfl⟩
  · intro s r hout
    have hcal : ScreenA.onCalculate s =
        ({ s with bmi := some r.value, display := ScreenA.Display.result r },
          ScreenA.acceptIntents r.scalePosition) := by
      rw [ScreenA.onCalculate.eq_def, hout]
    rw [hcal]
    exact ⟨rfl, rfl⟩

/-- C8: in both variants the shake is one sequence of five timed legs whose
displacements alternate in sign with non-increasing magnitude, total
duration 300 ms; and every rejected calculate, from any state (also when
already Invalid), emits the same fixed intent list, which contains the
shake, the result-card retraction and the scale-fill reset, so the collapse
intents are re-emitted idempotently each time. -/
theorem c8_shake_and_collapse :
    ScreenA.shakeIntent.segsOf.length = 5 ∧
    (ScreenA.shakeIntent.segsOf.map Seg.durationOf).sum = 300 ∧
    List.Chain' (fun a b => Seg.targetOf a * Seg.targetOf b ≤ 0)
      ScreenA.shakeIntent.segsOf ∧
    List.Chain' (fun a b => |Seg.targetOf b| ≤ |Seg.targetOf a|)
      ScreenA.shakeIntent.segsOf ∧
    ScreenB.shakeSeqIntent.segsOf.length = 5 ∧
    (ScreenB.shakeSeqIntent.segsOf.map Seg.durationOf).sum = 300 ∧
    List.Chain' (fun a b => Seg.targetOf a * Seg.targetOf b ≤ 0)
      ScreenB.shakeSeqIntent.segsOf ∧
    List.Chain' (fun a b => |Seg.targetOf b| ≤ |Seg.targetOf a|)
      ScreenB.shakeSeqIntent.segsOf ∧
    (∀ s : ScreenA.State, ScreenA.outcomeOf s = ScreenA.EvalOutcome.rejected →
        (ScreenA.onCalculate s).2 = ScreenA.rejectIntents) ∧
    ScreenA.shakeIntent ∈ ScreenA.rejectIntents ∧
    Intent.anim Channel.reveal [Seg.timing 0 180] ∈ ScreenA.rejectIntents ∧
    Intent.anim Channel.progress [Seg.timing 0 180] ∈ ScreenA.rejectIntents ∧
    (∀ s : ScreenB.State, ScreenB.outcomeOf s = ScreenB.EvalOutcome.rejected →
        (ScreenB.onCalculate s).2 = ScreenB.rejectIntents) ∧
    ScreenB.shakeSeqIntent ∈ ScreenB.rejectIntents ∧
    Intent.anim Channel.reveal [Seg.timing 0 160] ∈ ScreenB.rejectIntents ∧
    Intent.anim Channel.progress [Seg.timing 0 180] ∈ ScreenB.rejectIntents := by
  have hchain : ∀ i : Intent, i.segsOf =
      [Seg.timing (-10) 60, Seg.timing 10 60, Seg.timing (-8) 60,
        Seg.timing 8 60, Seg.timing 0 60] →
      List.Chain' (fun a b => Seg.targetOf a * Seg.targetOf b ≤ 0) i.segsOf ∧
      List.Chain' (fun a b => |Seg.targetOf b| ≤ |Seg.targetOf a|) i.segsOf := by
    intro i hi
    rw [hi]
    constructor
    · simp only [List.chain'_cons, List.chain'_singleton, Seg.targetOf]
      exact ⟨by decide, by decide, by decide, by decide, trivial⟩
    · simp only [List.chain'_cons, List.chain'_singleton, Seg.targetOf]
      exact ⟨by decide, by decide, by decide, by decide, trivial⟩
  obtain ⟨ha1, ha2⟩ := hchain ScreenA.shakeIntent rfl
  obtain ⟨hb1, hb2⟩ := hchain ScreenB.shakeSeqIntent rfl
  refine ⟨by decide, by decide, ha1, ha2, by decide, by decide,
    hb1, hb2, ?_, by decide, by decide, by decide, ?_, by decide,
    by decide, by decide⟩
  · intro s hout
    rw [ScreenA.onCalculate.eq_def, hout]
  · intro s hout
    rw [ScreenB.onCalculate.eq_def, hout]

/-- C9: the two screen variants implement identical business logic: the
parse functions agree on every text, the classifiers agree on label, range
string and hint for every BMI, the rounding functions agree on every value,
and the evaluations accept/reject identically with the same BMI value and
the same normalized scale position. -/
theorem c9_variants_equivalent :
    (∀ s : String, ScreenA.parseNumber s = ScreenB.parseNumber s) ∧
    (∀ b : ℚ,
        (ScreenA.getBmiCategory b).label = (ScreenB.getBmiCategory b).label ∧
        (ScreenA.getBmiCategory b).rangeLabel =
          (ScreenB.getBmiCategory b).rangeLabel ∧
        (ScreenA.getBmiCategory b).hint = (ScreenB.getBmiCategory b).hint) ∧
    (∀ q : ℚ, ScreenA.round1 q = ScreenB.round1 q) ∧
    (∀ oh ow : Option ℚ,
        (ScreenA.evaluate oh ow = ScreenA.EvalOutcome.rejected ↔
         ScreenB.evaluate oh ow = ScreenB.EvalOutcome.rejected)) ∧
    (∀ oh ow : Option ℚ, ∀ ra : ScreenA.BmiResult, ∀ rb : ScreenB.BmiResult,
        ScreenA.evaluate oh ow = ScreenA.EvalOutcome.accepted ra →
        ScreenB.evaluate oh ow = ScreenB.EvalOutcome.accepted rb →
        ra.value = rb.value ∧ ra.scalePosition = rb.scalePosition) := by
  refine ⟨fun _ => rfl, ?_, fun _ => rfl, ?_, ?_⟩
  · intro b
    rw [ScreenA.getBmiCategory, ScreenB.getBmiCategory]
    split_ifs <;> exact ⟨rfl, rfl, rfl⟩
  · intro oh ow
    exact (evaluateA_rejected_iff oh ow).trans
      (evaluateB_rejected_iff oh ow).symm
  · intro oh ow ra rb ha hb
    obtain ⟨h1, w1, hh1, hw1, hc1, hra⟩ := evaluateA_accepted_inv ha
    obtain ⟨h2, w2, hh2, hw2, hc2, hrb⟩ := evaluateB_accepted_inv hb
    rw [hh1] at hh2
    rw [hw1] at hw2
    obtain rfl := Option.some.inj hh2
    obtain rfl := Option.some.inj hw2
    subst hra
    subst hrb
    exact ⟨rfl, rfl⟩

/-- C10: the comma normalization rewrites only the first comma of the text:
"1,234" parses as 1.234 (the comma is the decimal separator, not a
thousands separator), and any text with two or more commas parses as absent
because a comma survives normalization and makes the text non-numeric. -/
theorem c10_comma_first_occurrence :
    (∀ s : String, 2 ≤ s.data.count ',' →
        ScreenA.parseNumber s = none ∧ ScreenB.parseNumber s = none) ∧
    ScreenA.parseNumber "1,234" = some 1.234 ∧
    ScreenA.parseNumber "1,2,3" = none ∧
    ScreenB.parseNumber "1,234" = some 1.234 := by
  refine ⟨?_, by decide, by decide, by decide⟩
  intro s h
  have ha := parseNumber_two_commas h
  exact ⟨ha, (parseNumber_eq_variants s) ▸ ha⟩
